import Mathlib

/-!
Verification of the authentication and authorization core of the
Server-Mern-Food-Project repository (an Express + MongoDB recipe API).

The embedding below translates the relevant JavaScript into Lean:
* `src/index.js` — configuration (`JWT_SECRET`, `ADMIN_EMAILS`), the helpers
  `signToken` and `canEditOrDelete`, and the route handlers for
  `/auth/register`, `/auth/login`, `/auth/me`, `PUT /recipes/:id` and
  `DELETE /recipes/:id`.
* `src/middleware/auth.js` — the bearer-token session verifier.

The MongoDB collections are modelled as Lean lists (`List User`,
`List Recipe`); `findOne`/`findById` become `List.find?`, `create` appends,
`save` replaces the document by id, `deleteOne` filters it out.  `bcrypt` is
modelled abstractly by a hashing function and a comparison function passed as
parameters.  A JWT is modelled structurally: a well-formed signed token
carries its claims, its issued-at time, and the secret its signature was made
with (an HMAC signature verifies against exactly the secret that produced
it); a structurally malformed token string decodes to `none`.
-/

namespace MernFood

/-- JS truthiness of an optional string field: an absent (`undefined`) value
and the empty string are falsy, every other string is truthy. -/
def jsPresent : Option String → Bool
  | none => false
  | some s => s ≠ ""

/-- JS `a || b` on an optional string: yields the default when the value is
absent or the empty string, otherwise the value itself. -/
def jsOr (s : Option String) (d : String) : String :=
  match s with
  | none => d
  | some v => if v = "" then d else v

/-- `const JWT_SECRET = process.env.JWT_SECRET || 'secret'` (src/index.js:23,
and the identical expression at src/middleware/auth.js:9). -/
def jwtSecret (env : Option String) : String :=
  jsOr env "secret"

/-- `const ADMIN_EMAILS = (process.env.ADMIN_EMAILS || '...').split(',')
.map(e => e.trim().toLowerCase())` (src/index.js:24-26). -/
def adminEmails (env : Option String) : List String :=
  ((jsOr env "mzeyara752.2@gmail.com,tamer@gmail.com").splitOn ",").map
    (fun e => e.trim.toLower)

/-- A stored user document (`models/user`): `_id`, `name`, normalized
`email`, `passwordHash`, `role` (`"user"` or `"admin"`). -/
structure User where
  id : String
  name : String
  email : String
  passwordHash : String
  role : String
deriving Repr, DecidableEq

/-- A stored recipe document (`models/recipe`): the `author` field holds the
owning user's ObjectId in canonical string form, `none` when absent. -/
structure Recipe where
  id : String
  title : String
  description : String
  ingredients : List String
  steps : List String
  author : Option String
  image : Option String
deriving Repr, DecidableEq

/-- The authenticated identity the middleware sets on `req.user`. -/
structure AuthContext where
  id : String
  name : String
  role : String
deriving Repr, DecidableEq

/-- The claims embedded in a JWT payload; `role` is optional because a
token's payload need not carry the field. -/
structure Claims where
  id : String
  name : String
  role : Option String
deriving Repr, DecidableEq

/-- A structurally well-formed signed token: its claims, its issued-at time
(seconds), and the secret whose HMAC signature it carries. -/
structure SignedToken where
  claims : Claims
  iat : Nat
  sigSecret : String
deriving Repr, DecidableEq

/-- `expiresIn: '7d'` in seconds. -/
def sevenDays : Nat := 7 * 24 * 60 * 60

/-- The `exp` claim jwt.sign puts on the token: issuance time plus 7 days. -/
def tokenExp (t : SignedToken) : Nat := t.iat + sevenDays

/-- `signToken` (src/index.js:43-45): signs `{id, name, role}` with
`JWT_SECRET` and a 7-day expiry. -/
def signToken (envSecret : Option String) (u : User) (now : Nat) : SignedToken :=
  { claims := { id := u.id, name := u.name, role := some u.role }
    iat := now
    sigSecret := jwtSecret envSecret }

/-- `jwt.verify(token, secret)`: a malformed token (`none`), a token signed
with a different secret, and an expired token (`now ≥ exp`) are all rejected
as the same opaque `none`; otherwise the embedded claims are produced. -/
def jwtVerify (t? : Option SignedToken) (secret : String) (now : Nat) :
    Option Claims :=
  match t? with
  | none => none
  | some t => if t.sigSecret = secret ∧ now < tokenExp t then some t.claims else none

/-- The session verifier (src/middleware/auth.js): 401 when the
`authorization` header is absent, when its first space-separated segment is
not `Bearer` or the second is missing/empty, or when `jwt.verify` rejects;
on success it sets `req.user = {id, name, role: payload.role || 'user'}`.
`decode` maps the token segment to its structural parse (`none` =
malformed).  The function takes no credential store: verification is
stateless from the token alone. -/
def authMiddleware (decode : String → Option SignedToken)
    (envSecret : Option String) (now : Nat) (header : Option String) :
    Except Nat AuthContext :=
  match header with
  | none => .error 401
  | some h =>
    let scheme := (h.splitOn " ").headD ""
    let token := ((h.splitOn " ").drop 1).headD ""
    if scheme ≠ "Bearer" ∨ token = "" then .error 401
    else
      match jwtVerify (decode token) (jwtSecret envSecret) now with
      | none => .error 401
      | some p => .ok { id := p.id, name := p.name, role := jsOr p.role "user" }

/-- `email.toLowerCase().trim()` as performed by the register and login
handlers. -/
def normalizeEmail (e : String) : String := e.toLower.trim

/-- Outcome of the register handler: HTTP status, the user collection after
the request, the issued token and the created user (both `none` on
failure). -/
structure RegisterResult where
  status : Nat
  store : List User
  token : Option SignedToken
  created : Option User
deriving Repr, DecidableEq

/-- The `/auth/register` handler (src/index.js:59-75): 400 on a missing
field or a password shorter than 5 characters, 409 when a user with the
normalized email already exists, otherwise creates the user with the email
lowercased and trimmed, role `admin` exactly when the normalized email is in
`ADMIN_EMAILS`, and returns a signed token.  `hashPw` models
`bcrypt.hash(·, 10)` and `newId` the store-assigned `_id`. -/
def register (envSecret envAdmins : Option String) (store : List User)
    (name? email? password? : Option String) (hashPw : String → String)
    (newId : String) (now : Nat) : RegisterResult :=
  if ¬ (jsPresent name? ∧ jsPresent email? ∧ jsPresent password?) then
    { status := 400, store := store, token := none, created := none }
  else if (password?.getD "").length < 5 then
    { status := 400, store := store, token := none, created := none }
  else
    let emailNorm := normalizeEmail (email?.getD "")
    match store.find? (fun u => u.email = emailNorm) with
    | some _ => { status := 409, store := store, token := none, created := none }
    | none =>
      let role := if (adminEmails envAdmins).contains emailNorm then "admin" else "user"
      let user : User :=
        { id := newId, name := name?.getD "", email := emailNorm,
          passwordHash := hashPw (password?.getD ""), role := role }
      { status := 200, store := store ++ [user],
        token := some (signToken envSecret user now), created := some user }

/-- `user.save()` after mutating a fetched document: the document replaces
the stored one with the same `_id`. -/
def replaceUser (store : List User) (u : User) : List User :=
  store.map (fun v => if v.id = u.id then u else v)

/-- Outcome of the login handler. -/
structure LoginResult where
  status : Nat
  store : List User
  token : Option SignedToken
  user : Option User
deriving Repr, DecidableEq

/-- The `/auth/login` handler (src/index.js:78-96): 400 on missing fields,
404 when no user has the normalized email, 401 when the password does not
match; otherwise, if the normalized email is in `ADMIN_EMAILS` and the
stored role is not `admin`, the role is set to `admin` and saved before the
token is issued.  `checkPw plaintext hash` models `bcrypt.compare`. -/
def login (envSecret envAdmins : Option String) (store : List User)
    (email? password? : Option String) (checkPw : String → String → Bool)
    (now : Nat) : LoginResult :=
  if ¬ (jsPresent email? ∧ jsPresent password?) then
    { status := 400, store := store, token := none, user := none }
  else
    let emailNorm := normalizeEmail (email?.getD "")
    match store.find? (fun u => u.email = emailNorm) with
    | none => { status := 404, store := store, token := none, user := none }
    | some user =>
      if ¬ checkPw (password?.getD "") user.passwordHash then
        { status := 401, store := store, token := none, user := none }
      else if (adminEmails envAdmins).contains emailNorm ∧ user.role ≠ "admin" then
        let user' : User := { user with role := "admin" }
        { status := 200, store := replaceUser store user',
          token := some (signToken envSecret user' now), user := some user' }
      else
        { status := 200, store := store,
          token := some (signToken envSecret user now), user := some user }

/-- The JSON body of a successful `/auth/me` response. -/
structure MeResponse where
  id : String
  name : String
  email : String
  role : String
  recipeCount : Nat
deriving Repr, DecidableEq

/-- The `/auth/me` handler (src/index.js:99-104), after the middleware has
set `req.user = ctx`: 404 when no stored user has the token's id, otherwise
the stored fields plus `recipeCount = Recipe.countDocuments({author:
user._id})`. -/
def authMe (users : List User) (recipes : List Recipe) (ctx : AuthContext) :
    Except Nat MeResponse :=
  match users.find? (fun u => u.id = ctx.id) with
  | none => .error 404
  | some user =>
    .ok { id := user.id, name := user.name, email := user.email,
          role := user.role,
          recipeCount := (recipes.filter (fun r => r.author = some user.id)).length }

/-- `canEditOrDelete` (src/index.js:47-51): false without an identity, true
for an admin, otherwise `recipe.author && recipe.author.toString() ===
user.id`. -/
def canEditOrDelete (user : Option AuthContext) (recipe : Recipe) : Bool :=
  match user with
  | none => false
  | some u =>
    if u.role = "admin" then true
    else
      match recipe.author with
      | none => false
      | some a => a = u.id

/-- A request-body field that JS may receive as an array or as a string
(the handlers accept both for `ingredients` and `steps`). -/
inductive StrOrList where
  | str : String → StrOrList
  | arr : List String → StrOrList
deriving Repr, DecidableEq

/-- `String(x).split('\n').map(s => s.trim()).filter(Boolean)`. -/
def splitLines (s : String) : List String :=
  ((s.splitOn "\n").map String.trim).filter (fun x => x ≠ "")

/-- `Array.isArray(x) ? x : String(x).split('\n')...` -/
def coerceList : StrOrList → List String
  | .arr xs => xs
  | .str s => splitLines s

/-- JS truthiness of an optional array-or-string field: an array is always
truthy, a string is truthy when nonempty. -/
def bodyPresent : Option StrOrList → Bool
  | none => false
  | some (.str s) => s ≠ ""
  | some (.arr _) => true

/-- The body of a `PUT /recipes/:id` request. -/
structure UpdateBody where
  title : Option String
  description : Option String
  ingredients : Option StrOrList
  steps : Option StrOrList
deriving Repr, DecidableEq

/-- The field assignments of the update handler (src/index.js:174-187):
each present (truthy) field overwrites the stored one; a newly uploaded
file replaces the image. -/
def applyUpdate (r : Recipe) (b : UpdateBody) (file : Option String) : Recipe :=
  let r1 := if jsPresent b.title then { r with title := b.title.getD "" } else r
  let r2 := if jsPresent b.description
            then { r1 with description := b.description.getD "" } else r1
  let r3 := if bodyPresent b.ingredients
            then { r2 with ingredients := coerceList (b.ingredients.getD (.arr [])) }
            else r2
  let r4 := if bodyPresent b.steps
            then { r3 with steps := coerceList (b.steps.getD (.arr [])) } else r3
  match file with
  | some f => { r4 with image := some f }
  | none => r4

/-- Outcome of a recipe mutation: HTTP status and the recipe collection
after the request. -/
structure MutationResult where
  status : Nat
  recipes : List Recipe
deriving Repr, DecidableEq

/-- The `PUT /recipes/:id` handler (src/index.js:168-194), after the
middleware has set `req.user`: 404 when no recipe has the id, 403 when
`canEditOrDelete` denies, otherwise the updated recipe is saved. -/
def updateRecipe (user : Option AuthContext) (recipes : List Recipe)
    (rid : String) (body : UpdateBody) (file : Option String) : MutationResult :=
  match recipes.find? (fun r => r.id = rid) with
  | none => { status := 404, recipes := recipes }
  | some r =>
    if ¬ canEditOrDelete user r then { status := 403, recipes := recipes }
    else
      { status := 200,
        recipes := recipes.map
          (fun x => if x.id = rid then applyUpdate r body file else x) }

/-- The `DELETE /recipes/:id` handler (src/index.js:197-212), after the
middleware has set `req.user`: 404 when no recipe has the id, 403 when
`canEditOrDelete` denies, otherwise `recipe.deleteOne()` removes it. -/
def deleteRecipe (user : Option AuthContext) (recipes : List Recipe)
    (rid : String) : MutationResult :=
  match recipes.find? (fun r => r.id = rid) with
  | none => { status := 404, recipes := recipes }
  | some r =>
    if ¬ canEditOrDelete user r then { status := 403, recipes := recipes }
    else { status := 200, recipes := recipes.filter (fun x => ¬ x.id = rid) }

/-- C1: the ownership-authorization predicate returns false for an absent
identity; true unconditionally for an admin; and otherwise true exactly when
the resource's author is present and equals the identity's id — in
particular false for every resource with no author recorded. -/
theorem C1_canMutate_characterization (u : Option AuthContext) (r : Recipe) :
    (canEditOrDelete none r = false)
    ∧ (∀ c : AuthContext, c.role = "admin" → canEditOrDelete (some c) r = true)
    ∧ (canEditOrDelete u r = true ↔
        ∃ c, u = some c ∧
          (c.role = "admin" ∨ ∃ a, r.author = some a ∧ a = c.id)) := by
  refine ⟨rfl, ?_, ?_⟩
  · intro c hc
    simp [canEditOrDelete, hc]
  · cases u with
    | none => simp [canEditOrDelete]
    | some c =>
      by_cases hadm : c.role = "admin"
      · simp [canEditOrDelete, hadm]
      · cases hauth : r.author with
        | none => simp [canEditOrDelete, hadm, hauth]
        | some a => simp [canEditOrDelete, hadm, hauth]

/-- C2: the session verifier rejects with 401 when the authorization header
is absent, when the scheme segment is not `Bearer` or the token segment is
missing/empty, or when token verification rejects; on success it produces
exactly the context `{id, name, role}` from the verified claims (role
defaulted per the JS `||`) for the downstream handler.  The verifier's type
takes no credential store, so it cannot touch one. -/
theorem C2_session_verifier (decode : String → Option SignedToken)
    (envSecret : Option String) (now : Nat) :
    (authMiddleware decode envSecret now none = .error 401)
    ∧ (∀ h : String,
        ((h.splitOn " ").headD "" ≠ "Bearer" ∨ ((h.splitOn " ").drop 1).headD "" = "") →
        authMiddleware decode envSecret now (some h) = .error 401)
    ∧ (∀ h : String,
        jwtVerify (decode (((h.splitOn " ").drop 1).headD ""))
          (jwtSecret envSecret) now = none →
        authMiddleware decode envSecret now (some h) = .error 401)
    ∧ (∀ (h : String) (c : Claims),
        (h.splitOn " ").headD "" = "Bearer" →
        ((h.splitOn " ").drop 1).headD "" ≠ "" →
        jwtVerify (decode (((h.splitOn " ").drop 1).headD ""))
          (jwtSecret envSecret) now = some c →
        authMiddleware decode envSecret now (some h) =
          .ok { id := c.id, name := c.name, role := jsOr c.role "user" }) := by
  refine ⟨rfl, ?_, ?_, ?_⟩
  · intro h hbad
    simp only [authMiddleware]
    rw [if_pos hbad]
  · intro h hv
    simp only [authMiddleware]
    by_cases hg : (h.splitOn " ").headD "" ≠ "Bearer" ∨ ((h.splitOn " ").drop 1).headD "" = ""
    · rw [if_pos hg]
    · rw [if_neg hg, hv]
  · intro h c hs ht hv
    simp only [authMiddleware]
    rw [if_neg, hv]
    push_neg
    exact ⟨hs, ht⟩

/-- C3: `jwt.verify` yields the embedded claims exactly when the token is
structurally well formed, its signature verifies against the given secret
and its expiry (which `signToken` fixes at 7 days after issuance) has not
elapsed; a malformed token, a token signed with a different secret, and an
expired token all produce the same opaque rejection `none`, never the
claims. -/
theorem C3_token_codec (envSecret : Option String) (secret : String) (now : Nat) :
    (∀ (u : User) (iat : Nat),
        tokenExp (signToken envSecret u iat) = iat + 7 * 24 * 60 * 60
        ∧ (signToken envSecret u iat).sigSecret = jwtSecret envSecret
        ∧ (signToken envSecret u iat).claims =
            { id := u.id, name := u.name, role := some u.role })
    ∧ (∀ (t? : Option SignedToken) (c : Claims),
        jwtVerify t? secret now = some c ↔
          ∃ t, t? = some t ∧ t.sigSecret = secret
            ∧ now < t.iat + 7 * 24 * 60 * 60 ∧ c = t.claims)
    ∧ (jwtVerify none secret now = none)
    ∧ (∀ t : SignedToken, t.sigSecret ≠ secret →
        jwtVerify (some t) secret now = none)
    ∧ (∀ t : SignedToken, ¬ now < t.iat + 7 * 24 * 60 * 60 →
        jwtVerify (some t) secret now = none) := by
  refine ⟨fun u iat => ⟨rfl, rfl, rfl⟩, ?_, rfl, ?_, ?_⟩
  · intro t? c
    cases t? with
    | none => simp [jwtVerify]
    | some t =>
      simp only [jwtVerify, tokenExp, sevenDays]
      by_cases hsig : t.sigSecret = secret
      · by_cases hexp : now < t.iat + 7 * 24 * 60 * 60
        · simp [hsig, hexp, eq_comm]
        · simp [hsig, hexp]
      · simp [hsig]
  · intro t hsig
    simp [jwtVerify, hsig]
  · intro t hexp
    simp [jwtVerify, tokenExp, sevenDays, hexp]

/-- C4 counterexample: with `JWT_SECRET` absent from the environment, the
secret actually used is the fixed publicly known constant `"secret"` — both
for signing and for the middleware's verification — contradicting the claim
that no well-known default is used. -/
theorem C4_counterexample :
    jwtSecret none = "secret"
    ∧ (signToken none
        { id := "u1", name := "A", email := "a@x.com",
          passwordHash := "h", role := "user" } 0).sigSecret = "secret" := by
  exact ⟨rfl, rfl⟩

/-- C4 (amended): when the `JWT_SECRET` configuration is absent (or empty,
which JS `||` also treats as falsy), token issuance and the session
verifier's verification both silently fall back to the well-known default
secret `"secret"`. -/
theorem C4_default_secret_fallback (u : User) (now : Nat)
    (decode : String → Option SignedToken) (header : Option String) :
    jwtSecret none = "secret"
    ∧ jwtSecret (some "") = "secret"
    ∧ (signToken none u now).sigSecret = "secret"
    ∧ authMiddleware decode none now header =
        authMiddleware decode (some "secret") now header := by
  refine ⟨rfl, rfl, rfl, ?_⟩
  cases header with
  | none => rfl
  | some h => simp [authMiddleware, jwtSecret, jsOr]

/-- Register returns 400 and changes nothing when a body field is missing
or empty. -/
theorem register_missing (envSecret envAdmins : Option String)
    (store : List User) (name? email? password? : Option String)
    (hashPw : String → String) (newId : String) (now : Nat)
    (h : ¬ (jsPresent name? ∧ jsPresent email? ∧ jsPresent password?)) :
    register envSecret envAdmins store name? email? password? hashPw newId now =
      { status := 400, store := store, token := none, created := none } := by
  simp only [register]
  rw [if_pos h]

/-- Register returns 400 and changes nothing when the password is shorter
than 5 characters. -/
theorem register_short (envSecret envAdmins : Option String)
    (store : List User) (nm em pw : String) (hashPw : String → String)
    (newId : String) (now : Nat) (hpw : pw.length < 5) :
    register envSecret envAdmins store (some nm) (some em) (some pw) hashPw newId now =
      { status := 400, store := store, token := none, created := none } := by
  by_cases hp : jsPresent (some nm) ∧ jsPresent (some em) ∧ jsPresent (some pw)
  · simp only [register, Option.getD_some]
    rw [if_neg (not_not_intro hp), if_pos hpw]
  · exact register_missing envSecret envAdmins store _ _ _ hashPw newId now hp

/-- Register returns 409 and changes nothing when a stored user already has
the normalized email. -/
theorem register_duplicate (envSecret envAdmins : Option String)
    (store : List User) (nm em pw : String) (hashPw : String → String)
    (newId : String) (now : Nat) (u : User)
    (hnm : nm ≠ "") (hem : em ≠ "") (hpw : 5 ≤ pw.length)
    (hu : store.find? (fun v => v.email = normalizeEmail em) = some u) :
    register envSecret envAdmins store (some nm) (some em) (some pw) hashPw newId now =
      { status := 409, store := store, token := none, created := none } := by
  have hpw' : pw ≠ "" := by
    intro h
    rw [h] at hpw
    simp at hpw
  have hp : jsPresent (some nm) ∧ jsPresent (some em) ∧ jsPresent (some pw) := by
    simp [jsPresent, hnm, hem, hpw']
  simp only [register, Option.getD_some]
  rw [if_neg (not_not_intro hp), if_neg (by omega), hu]

/-- Register succeeds on a fresh normalized email, appending a user with
the normalized email, the resolved role, the hashed password and the
store-assigned id, and signing a token for it. -/
theorem register_fresh (envSecret envAdmins : Option String)
    (store : List User) (nm em pw : String) (hashPw : String → String)
    (newId : String) (now : Nat)
    (hnm : nm ≠ "") (hem : em ≠ "") (hpw : 5 ≤ pw.length)
    (hfree : store.find? (fun v => v.email = normalizeEmail em) = none) :
    ∃ u : User,
      register envSecret envAdmins store (some nm) (some em) (some pw) hashPw newId now =
        { status := 200, store := store ++ [u],
          token := some (signToken envSecret u now), created := some u }
      ∧ u.email = normalizeEmail em
      ∧ u.role = (if (adminEmails envAdmins).contains (normalizeEmail em)
                  then "admin" else "user")
      ∧ u.name = nm ∧ u.id = newId ∧ u.passwordHash = hashPw pw := by
  have hpw' : pw ≠ "" := by
    intro h
    rw [h] at hpw
    simp at hpw
  have hp : jsPresent (some nm) ∧ jsPresent (some em) ∧ jsPresent (some pw) := by
    simp [jsPresent, hnm, hem, hpw']
  refine ⟨{ id := newId, name := nm, email := normalizeEmail em,
            passwordHash := hashPw pw,
            role := if (adminEmails envAdmins).contains (normalizeEmail em)
                    then "admin" else "user" }, ?_, rfl, rfl, rfl, rfl, rfl⟩
  simp only [register, Option.getD_some]
  rw [if_neg (not_not_intro hp), if_neg (by omega), hfree]

/-- C5: a registration with all fields present, a password of at least 5
characters and a fresh normalized email succeeds; the stored email is the
input email lowercased then trimmed, and the stored role is `admin` exactly
when the normalized email is in the configured admin set, else `user`. -/
theorem C5_register_success (envSecret envAdmins : Option String)
    (store : List User) (nm em pw : String) (hashPw : String → String)
    (newId : String) (now : Nat)
    (hnm : nm ≠ "") (hem : em ≠ "") (hpw : 5 ≤ pw.length)
    (hfree : store.find? (fun v => v.email = normalizeEmail em) = none) :
    (register envSecret envAdmins store (some nm) (some em) (some pw) hashPw newId now).status = 200
    ∧ ∃ u : User,
        (register envSecret envAdmins store (some nm) (some em) (some pw) hashPw newId now).created
          = some u
        ∧ (register envSecret envAdmins store (some nm) (some em) (some pw) hashPw newId now).store
          = store ++ [u]
        ∧ u.email = em.toLower.trim
        ∧ u.role = (if (adminEmails envAdmins).contains (normalizeEmail em)
                    then "admin" else "user") := by
  obtain ⟨u, heq, hmail, hrole, -⟩ :=
    register_fresh envSecret envAdmins store nm em pw hashPw newId now hnm hem hpw hfree
  rw [heq]
  exact ⟨rfl, u, rfl, rfl, hmail, hrole⟩

/-- C5 witness: registering `{name:"A", email:"A@x.com ", password:"abcde"}`
into an empty store succeeds with stored email `"a@x.com"` and role
`user`. -/
theorem C5_register_success_witness :
    (register none none [] (some "A") (some "A@x.com ") (some "abcde")
      (fun p => p ++ "#h") "id1" 0).status = 200 := by
  have h := C5_register_success none none [] "A" "A@x.com " "abcde"
    (fun p => p ++ "#h") "id1" 0 (by decide) (by decide) (by decide) rfl
  exact h.1

/-- C6: registration fails with 400 on a missing/empty field or a password
shorter than 5 characters and with 409 when the normalized email is already
stored; in every failure case the store is unchanged and no user is
created; and registering twice with emails that normalize alike yields one
success and then one 409 that leaves the store as the first success left
it. -/
theorem C6_register_failures (envSecret envAdmins : Option String)
    (store : List User) (hashPw : String → String) (newId : String) (now : Nat) :
    (∀ name? email? password? : Option String,
        ¬ (jsPresent name? ∧ jsPresent email? ∧ jsPresent password?) →
        register envSecret envAdmins store name? email? password? hashPw newId now =
          { status := 400, store := store, token := none, created := none })
    ∧ (∀ nm em pw : String, pw.length < 5 →
        register envSecret envAdmins store (some nm) (some em) (some pw) hashPw newId now =
          { status := 400, store := store, token := none, created := none })
    ∧ (∀ (nm em pw : String) (u : User), nm ≠ "" → em ≠ "" → 5 ≤ pw.length →
        store.find? (fun v => v.email = normalizeEmail em) = some u →
        register envSecret envAdmins store (some nm) (some em) (some pw) hashPw newId now =
          { status := 409, store := store, token := none, created := none })
    ∧ (∀ (nm em pw nm2 em2 pw2 newId2 : String) (now2 : Nat),
        nm ≠ "" → em ≠ "" → 5 ≤ pw.length →
        store.find? (fun v => v.email = normalizeEmail em) = none →
        nm2 ≠ "" → em2 ≠ "" → 5 ≤ pw2.length →
        normalizeEmail em2 = normalizeEmail em →
        (register envSecret envAdmins store (some nm) (some em) (some pw) hashPw newId now).status
          = 200
        ∧ register envSecret envAdmins
            (register envSecret envAdmins store (some nm) (some em) (some pw) hashPw newId now).store
            (some nm2) (some em2) (some pw2) hashPw newId2 now2 =
          { status := 409,
            store := (register envSecret envAdmins store (some nm) (some em) (some pw)
              hashPw newId now).store,
            token := none, created := none }) := by
  refine ⟨?_, ?_, ?_, ?_⟩
  · intro n? e? p? h
    exact register_missing envSecret envAdmins store n? e? p? hashPw newId now h
  · intro nm em pw h
    exact register_short envSecret envAdmins store nm em pw hashPw newId now h
  · intro nm em pw u hnm hem hpw hu
    exact register_duplicate envSecret envAdmins store nm em pw hashPw newId now u hnm hem hpw hu
  · intro nm em pw nm2 em2 pw2 newId2 now2 hnm hem hpw hfree hnm2 hem2 hpw2 heq2
    obtain ⟨u, hreg, hmail, -, -, -, -⟩ :=
      register_fresh envSecret envAdmins store nm em pw hashPw newId now hnm hem hpw hfree
    constructor
    · rw [hreg]
    · rw [hreg]
      have hfind2 : (store ++ [u]).find? (fun v => v.email = normalizeEmail em2) = some u := by
        simp only [heq2, List.find?_append, hfree]
        simp [List.find?, hmail]
      exact register_duplicate envSecret envAdmins (store ++ [u]) nm2 em2 pw2 hashPw
        newId2 now2 u hnm2 hem2 hpw2 hfind2

/-- On a successful credential check, login either upgrades the found user
to admin (when the allow-list applies and the stored role is not already
admin) or leaves everything as stored. -/
theorem login_found (envSecret envAdmins : Option String) (store : List User)
    (em pw : String) (checkPw : String → String → Bool) (now : Nat) (u : User)
    (hem : em ≠ "") (hpw : pw ≠ "")
    (hu : store.find? (fun v => v.email = normalizeEmail em) = some u)
    (hok : checkPw pw u.passwordHash = true) :
    login envSecret envAdmins store (some em) (some pw) checkPw now =
      if (adminEmails envAdmins).contains (normalizeEmail em) ∧ u.role ≠ "admin" then
        { status := 200, store := replaceUser store { u with role := "admin" },
          token := some (signToken envSecret { u with role := "admin" } now),
          user := some { u with role := "admin" } }
      else
        { status := 200, store := store,
          token := some (signToken envSecret u now), user := some u } := by
  have hp : jsPresent (some em) ∧ jsPresent (some pw) := by
    simp [jsPresent, hem, hpw]
  simp only [login, Option.getD_some, hu]
  rw [if_neg (not_not_intro hp), if_neg (by simp [hok])]

/-- The store a login leaves behind is either unchanged or has the found
user replaced by its admin-role copy. -/
theorem login_store_shape (envSecret envAdmins : Option String) (store : List User)
    (email? password? : Option String) (checkPw : String → String → Bool) (now : Nat) :
    (login envSecret envAdmins store email? password? checkPw now).store = store
    ∨ ∃ u : User,
        (login envSecret envAdmins store email? password? checkPw now).store =
          replaceUser store { u with role := "admin" } := by
  simp only [login]
  split
  · exact Or.inl rfl
  · split
    · exact Or.inl rfl
    · rename_i u hu
      split
      · exact Or.inl rfl
      · split
        · exact Or.inr ⟨u, rfl⟩
        · exact Or.inl rfl

/-- A member of `replaceUser store u` is `u` itself or an untouched member
of the original store. -/
theorem mem_replaceUser (store : List User) (u w : User)
    (hw : w ∈ replaceUser store u) : w = u ∨ w ∈ store := by
  simp only [replaceUser, List.mem_map] at hw
  obtain ⟨v, hv, hfv⟩ := hw
  by_cases h : v.id = u.id
  · rw [if_pos h] at hfv
    exact Or.inl hfv.symm
  · rw [if_neg h] at hfv
    rw [← hfv]
    exact Or.inr hv

/-- C7: on a successful login whose normalized email is in the admin set
while the stored role is `user`, the stored role is upgraded to `admin` and
persisted before token issuance, so the issued token's role claim is
`admin`; and no login ever writes role `user` — any user stored with role
`user` after a login was already in the store. -/
theorem C7_login_role_upgrade (envSecret envAdmins : Option String)
    (store : List User) (checkPw : String → String → Bool) (now : Nat) :
    (∀ (em pw : String) (u : User), em ≠ "" → pw ≠ "" →
        store.find? (fun v => v.email = normalizeEmail em) = some u →
        checkPw pw u.passwordHash = true →
        (adminEmails envAdmins).contains (normalizeEmail em) = true →
        u.role = "user" →
        (login envSecret envAdmins store (some em) (some pw) checkPw now).status = 200
        ∧ (login envSecret envAdmins store (some em) (some pw) checkPw now).store =
            replaceUser store { u with role := "admin" }
        ∧ (login envSecret envAdmins store (some em) (some pw) checkPw now).user =
            some { u with role := "admin" }
        ∧ ∃ t : SignedToken,
            (login envSecret envAdmins store (some em) (some pw) checkPw now).token = some t
            ∧ t.claims.role = some "admin")
    ∧ (∀ (email? password? : Option String) (w : User),
        w ∈ (login envSecret envAdmins store email? password? checkPw now).store →
        w.role = "user" → w ∈ store) := by
  constructor
  · intro em pw u hem hpw hu hok hadm hrole
    have hcond : (adminEmails envAdmins).contains (normalizeEmail em) ∧ u.role ≠ "admin" := by
      refine ⟨hadm, ?_⟩
      rw [hrole]
      decide
    rw [login_found envSecret envAdmins store em pw checkPw now u hem hpw hu hok,
      if_pos hcond]
    exact ⟨rfl, rfl, rfl, _, rfl, rfl⟩
  · intro e? p? w hw hrole
    rcases login_store_shape envSecret envAdmins store e? p? checkPw now with hs | ⟨u, hs⟩
    · rw [hs] at hw
      exact hw
    · rw [hs] at hw
      rcases mem_replaceUser store _ w hw with hwu | hmem
      · rw [hwu] at hrole
        simp at hrole
      · exact hmem

/-- C8: for an authenticated mutation (update or delete), a missing target
yields 404 and a target whose author is neither the identity nor covered by
an admin role yields 403; in both cases the recipe collection is left
exactly as it was — no field assignment or deletion happens. -/
theorem C8_mutation_guard (recipes : List Recipe) (rid : String)
    (body : UpdateBody) (file : Option String) (c : AuthContext) :
    (recipes.find? (fun r => r.id = rid) = none →
        updateRecipe (some c) recipes rid body file = { status := 404, recipes := recipes }
        ∧ deleteRecipe (some c) recipes rid = { status := 404, recipes := recipes })
    ∧ (∀ r : Recipe, recipes.find? (fun x => x.id = rid) = some r →
        canEditOrDelete (some c) r = false →
        updateRecipe (some c) recipes rid body file = { status := 403, recipes := recipes }
        ∧ deleteRecipe (some c) recipes rid = { status := 403, recipes := recipes }) := by
  constructor
  · intro hnone
    constructor
    · simp only [updateRecipe, hnone]
    · simp only [deleteRecipe, hnone]
  · intro r hr hden
    constructor
    · simp only [updateRecipe, hr]
      rw [if_pos (by simp [hden])]
    · simp only [deleteRecipe, hr]
      rw [if_pos (by simp [hden])]

/-- C9: the identity fetch fails with 404 when no stored user has the
token's id, and otherwise answers with the stored id, name, email and role
together with a count of exactly the stored recipes whose author is this
identity's id. -/
theorem C9_auth_me (users : List User) (recipes : List Recipe) (ctx : AuthContext) :
    ((∀ u ∈ users, u.id ≠ ctx.id) → authMe users recipes ctx = .error 404)
    ∧ (∀ u : User, users.find? (fun v => v.id = ctx.id) = some u →
        authMe users recipes ctx = .ok
          { id := u.id, name := u.name, email := u.email, role := u.role,
            recipeCount := recipes.countP (fun r => r.author = some u.id) }) := by
  constructor
  · intro hall
    have hnone : users.find? (fun v => v.id = ctx.id) = none := by
      rw [List.find?_eq_none]
      intro x hx
      simp [hall x hx]
    simp only [authMe, hnone]
  · intro u hu
    simp only [authMe, hu, List.countP_eq_length_filter]

/-- C10: a token that verifies but carries no role claim (or a falsy one)
produces an authenticated context with the least-privileged role `user`;
conversely an admin context can only come from a token whose role claim is
literally `admin`, so a missing role claim can never grant admin
authorization. -/
theorem C10_missing_role_defaults_to_user (decode : String → Option SignedToken)
    (envSecret : Option String) (now : Nat) :
    (∀ (h : String) (t : SignedToken),
        (h.splitOn " ").headD "" = "Bearer" →
        ((h.splitOn " ").drop 1).headD "" ≠ "" →
        decode (((h.splitOn " ").drop 1).headD "") = some t →
        t.sigSecret = jwtSecret envSecret →
        now < tokenExp t →
        (t.claims.role = none ∨ t.claims.role = some "") →
        authMiddleware decode envSecret now (some h) =
          .ok { id := t.claims.id, name := t.claims.name, role := "user" })
    ∧ (∀ (h : String) (ctx : AuthContext),
        authMiddleware decode envSecret now (some h) = .ok ctx →
        ctx.role = "admin" →
        ∃ t : SignedToken,
          decode (((h.splitOn " ").drop 1).headD "") = some t
          ∧ t.claims.role = some "admin") := by
  constructor
  · intro h t hs ht hdec hsig hexp hrole
    have hv : jwtVerify (decode (((h.splitOn " ").drop 1).headD ""))
        (jwtSecret envSecret) now = some t.claims := by
      rw [hdec]
      simp [jwtVerify, hsig, hexp]
    simp only [authMiddleware]
    rw [if_neg (by push_neg; exact ⟨hs, ht⟩), hv]
    rcases hrole with h0 | h0 <;> simp [jsOr, h0]
  · intro h ctx hok hadm
    simp only [authMiddleware] at hok
    by_cases hg : (h.splitOn " ").headD "" ≠ "Bearer" ∨ ((h.splitOn " ").drop 1).headD "" = ""
    · rw [if_pos hg] at hok
      exact absurd hok (by simp)
    · rw [if_neg hg] at hok
      cases hv : jwtVerify (decode (((h.splitOn " ").drop 1).headD ""))
          (jwtSecret envSecret) now with
      | none =>
        rw [hv] at hok
        exact absurd hok (by simp)
      | some p =>
        rw [hv] at hok
        have hctx : ctx = { id := p.id, name := p.name, role := jsOr p.role "user" } := by
          cases hok
          rfl
        obtain ⟨t, hdec, hsig, hexp, hclaims⟩ : ∃ t : SignedToken,
            decode (((h.splitOn " ").drop 1).headD "") = some t
            ∧ t.sigSecret = jwtSecret envSecret ∧ now < tokenExp t ∧ p = t.claims := by
          cases hd : decode (((h.splitOn " ").drop 1).headD "") with
          | none =>
            rw [hd] at hv
            simp [jwtVerify] at hv
          | some t =>
            rw [hd] at hv
            simp only [jwtVerify] at hv
            by_cases hc : t.sigSecret = jwtSecret envSecret ∧ now < tokenExp t
            · rw [if_pos hc] at hv
              cases hv
              exact ⟨t, rfl, hc.1, hc.2, rfl⟩
            · rw [if_neg hc] at hv
              exact absurd hv (by simp)
        refine ⟨t, hdec, ?_⟩
        rw [hctx] at hadm
        have : jsOr p.role "user" = "admin" := hadm
        rw [hclaims] at this
        cases hr : t.claims.role with
        | none =>
          rw [hr] at this
          simp [jsOr] at this
        | some s =>
          rw [hr] at this
          by_cases hs0 : s = ""
          · rw [hs0] at this
            simp [jsOr] at this
          · simp only [jsOr] at this
            rw [if_neg hs0] at this
            rw [this]

end MernFood
